import Mathlib

/-!
Verification of the Arduino DAQ acquisition and filtering pipeline
(`serial_recive_with_lowpass.py` and its near-duplicates).

Python strings are embedded as `List Char`; a CSV table's numeric columns
are embedded as `List ℚ` (exact arithmetic; the claims proved here concern
control flow, lengths and classification, never rounding).
-/

set_option maxRecDepth 100000

namespace ArduinoDaq

/-! ### Character-list string helpers (Python `str` operations) -/

/-- Python `str.strip()`: drop whitespace from both ends. -/
def stripC (l : List Char) : List Char :=
  ((l.dropWhile Char.isWhitespace).reverse.dropWhile Char.isWhitespace).reverse

/-- Is `pat` an initial segment of `l`?  (helper for substring search). -/
def hasPrefixC : List Char → List Char → Bool
  | [], _ => true
  | _ :: _, [] => false
  | a :: as, b :: bs => a == b && hasPrefixC as bs

/-- Python `pat in line`: does `l` contain `pat` as a contiguous substring? -/
def containsSubC (pat : List Char) : List Char → Bool
  | [] => hasPrefixC pat []
  | l@(_ :: rest) => hasPrefixC pat l || containsSubC pat rest

/-- Split on a separator character (Python `str.split(sep)` for a 1-char sep). -/
def splitOnCAux (c : Char) : List Char → List Char → List (List Char)
  | [], acc => [acc.reverse]
  | x :: xs, acc =>
    if x == c then acc.reverse :: splitOnCAux c xs []
    else splitOnCAux c xs (x :: acc)

def splitOnC (c : Char) (l : List Char) : List (List Char) :=
  splitOnCAux c l []

/-- Python `line.count(',')`. -/
def countCommas (l : List Char) : Nat :=
  l.count ','

/-- Python `line[0].isdigit()` (evaluated only on non-empty lines). -/
def firstIsDigit : List Char → Bool
  | [] => false
  | c :: _ => c.isDigit

/-! ### Session protocol: the RECORDING loop
(`serial_recive_with_lowpass.py`, `main`, lines 343–388).

Each serial read is `ser.readline().decode(...).strip()`; the loop runs while
`recording and (time.time() - start_time) < timeout_duration`.  We embed the
byte stream as a finite schedule of `(arrival_time, raw_line)` events with
non-decreasing arrival times (wall clock), and the loop as structural
recursion over that schedule: processing stops at the first event at or past
the deadline (the `while` condition fails) or at a completion marker. -/

inductive LineClass where
  | complete : LineClass
  | diag : LineClass
  | data : LineClass
  | blank : LineClass
deriving DecidableEq

/-- Classification of a (stripped) incoming line, in the source's branch
order: `"RECORDING_COMPLETE" in line`, `"SAMPLES_COLLECTED" in line`,
`"END_OF_DATA" in line`, `elif line:` (any non-empty line is data). -/
def classifyLine (l : List Char) : LineClass :=
  if containsSubC "RECORDING_COMPLETE".data l then .complete
  else if containsSubC "SAMPLES_COLLECTED".data l then .diag
  else if containsSubC "END_OF_DATA".data l then .diag
  else if l ≠ [] then .data
  else .blank

inductive Outcome where
  | completed : Outcome
  | timedOut : Outcome
deriving DecidableEq

/-- The RECORDING loop: `rows` is the session's row buffer (lines written to
the CSV file, in the order written). -/
def runRecording (deadline : Nat) (events : List (Nat × List Char))
    (rows : List (List Char)) : List (List Char) × Outcome :=
  match events with
  | [] => (rows, .timedOut)
  | (t, l) :: rest =>
    if t < deadline then
      match classifyLine (stripC l) with
      | .complete => (rows, .completed)
      | .diag => runRecording deadline rest rows
      | .data => runRecording deadline rest (rows ++ [stripC l])
      | .blank => runRecording deadline rest rows
    else (rows, .timedOut)

/-- The lines the loop writes to the file: events strictly before the
deadline, cut at the first completion marker, keeping exactly the
`data`-classified lines in arrival order. -/
def recordedLines (deadline : Nat) : List (Nat × List Char) → List (List Char)
  | [] => []
  | (t, l) :: rest =>
    if t < deadline then
      match classifyLine (stripC l) with
      | .complete => []
      | .diag => recordedLines deadline rest
      | .data => stripC l :: recordedLines deadline rest
      | .blank => recordedLines deadline rest
    else []

/-! ### Row cleaner (`clean_data_file`, lines 252–295) -/

/-- One field of `\d+` (ASCII digits; the claims below use ASCII data only). -/
def isNatC (l : List Char) : Bool :=
  !l.isEmpty && l.all Char.isDigit

/-- One field of `\d+\.\d+`: exactly one dot with digit runs on both sides. -/
def isDecC (l : List Char) : Bool :=
  match splitOnC '.' l with
  | [a, b] => isNatC a && isNatC b
  | _ => false

/-- The anchored regex `^\d+,\d+,\d+\.\d+,\d+\.\d+,\d+\.\d+,\d+\.\d+$`:
since no field pattern can contain a comma, a line matches iff splitting on
commas yields exactly the six field shapes. -/
def dataPatternMatch (l : List Char) : Bool :=
  match splitOnC ',' l with
  | [a, b, c, d, e, f] =>
    isNatC a && isNatC b && isDecC c && isDecC d && isDecC e && isDecC f
  | _ => false

/-- Python `"Sample,Time" in line`. -/
def isHeaderLine (l : List Char) : Bool :=
  containsSubC "Sample,Time".data l

/-- The acceptance test of the cleaner's `if` on non-header lines:
`data_pattern.match(line) or (line.count(',') == 5 and line[0].isdigit())`.
(`line[0]` is reached only when the count is 5, hence the line non-empty.) -/
def acceptData (l : List Char) : Bool :=
  dataPatternMatch l || (countCommas l == 5 && firstIsDigit l)

/-- The cleaner's loop over the (stripped) lines, returning the kept lines in
order together with the `header_found` flag (true iff some line contained
`"Sample,Time"`).  The Python loop appends forward with a mutable flag; this
right recursion computes the same kept list and the same flag. -/
def cleanGo : List (List Char) → List (List Char) × Bool
  | [] => ([], false)
  | l :: rest =>
    let r := cleanGo rest
    if isHeaderLine l then (l :: r.1, true)
    else if acceptData l then (l :: r.1, r.2)
    else r

def canonicalHeader : List Char :=
  "Sample,Time(ms),A0(V),A1(V),A2(V),A3(V)".data

/-- `clean_data_file`, on the list of lines of the input file (the written
trailing `'\n'` of each kept line is immaterial and omitted): each line is
stripped, classified, and if no header was found but some line was kept, the
canonical header is inserted at the front. -/
def clean_data_file (lines : List (List Char)) : List (List Char) :=
  let r := cleanGo (lines.map stripC)
  if !r.2 && !r.1.isEmpty then canonicalHeader :: r.1 else r.1

/-! ### Sample-rate estimator
(`filter_and_save_data`, lines 91–95: `np.diff`, `np.median`, `1000.0 / m`).

`np.median` of an empty array is NaN and `1000.0 / 0.0` is `+inf` under IEEE
arithmetic (numpy emits warnings, raises nothing), so the estimator's
codomain distinguishes finite rationals from `+inf` and NaN. -/

/-- `np.diff`: consecutive differences. -/
def npDiff (xs : List ℚ) : List ℚ :=
  List.zipWith (fun a b => b - a) xs (xs.drop 1)

/-- `np.median`: sort; middle element for odd length, mean of the two middle
elements for even length; NaN (here `none`) for an empty array. -/
def npMedian (xs : List ℚ) : Option ℚ :=
  match xs with
  | [] => none
  | _ :: _ =>
    let s := xs.insertionSort (· ≤ ·)
    let n := xs.length
    if n % 2 = 1 then some (s.getD (n / 2) 0)
    else some ((s.getD (n / 2 - 1) 0 + s.getD (n / 2) 0) / 2)

inductive NpFloat where
  | finite : ℚ → NpFloat
  | posInf : NpFloat
  | nan : NpFloat
deriving DecidableEq

/-- IEEE semantics of the source's `1000.0 / median_time_diff` at a known
finite median: division by zero yields `+inf` (the dividend is positive),
otherwise a finite quotient.  The division is unconditional in the source;
this case split is the embedding of float division, not a guard. -/
def divByMedian (m : ℚ) : NpFloat :=
  if m = 0 then .posInf else .finite (1000 / m)

/-- `fs = 1000.0 / np.median(np.diff(df[Time(ms)]))`; a NaN median (empty
delta list, i.e. fewer than 2 rows) propagates to a NaN rate. -/
def fsFromTimes (ts : List ℚ) : NpFloat :=
  match npMedian (npDiff ts) with
  | none => .nan
  | some m => divByMedian m

/-! ### Filter design and zero-phase application
(`apply_lowpass_filter`, lines 36–58, delegating to `scipy.signal.butter`
and `scipy.signal.filtfilt`). -/

inductive FilterErr where
  | invalidSpec : FilterErr
  | insufficientLength : FilterErr
deriving DecidableEq

/-- Modelled from the spec: the filter designer's validation
(`scipy.signal.butter` is not part of this repository's sources).  §4.4:
"fail with an `InvalidSpec` error if `Wn >= 1` (cutoff at or beyond Nyquist)
or `Wn <= 0`"; §7/§8: `InvalidFilterSpec` for `order <= 0`. -/
def butterValidate (order : ℤ) (wn : ℚ) : Except FilterErr Unit :=
  if order ≤ 0 then .error .invalidSpec
  else if wn ≤ 0 ∨ 1 ≤ wn then .error .invalidSpec
  else .ok ()

/-- Modelled from the spec: the Butterworth coefficient sequences
(`scipy.signal.butter` is not part of this repository's sources).  §4.4/§3
fix only their shape — `b` and `a` of length `order+1` with `a[0] = 1` —
which is all the claims below depend on; the numeric pole values are
irrational and are not embedded. -/
def butterCoeffs (order : ℤ) : List ℚ × List ℚ :=
  (1 :: List.replicate order.toNat 0, 1 :: List.replicate order.toNat 0)

/-- `padlen = 3 * max(len(a), len(b))` (the default of `filtfilt`, which the
spec states as "typically `3 * max(len(a), len(b))`"). -/
def padlenOf (b a : List ℚ) : Nat :=
  3 * max a.length b.length

/-- Modelled from the spec (§4.5 step 1): odd-reflection extension of the
signal by `n` samples at each end (`scipy.signal.odd_ext`):
`[2*x[0] - x[n], …, 2*x[0] - x[1]] ++ x ++ [2*x[-1] - x[-2], …, 2*x[-1] - x[-(n+1)]]`. -/
def oddExtL (x : List ℚ) (n : Nat) : List ℚ :=
  (((x.drop 1).take n).reverse.map (fun v => 2 * x.headD 0 - v))
    ++ x
    ++ (((x.reverse.drop 1).take n).map (fun v => 2 * x.reverse.headD 0 - v))

/-- The direct-form IIR recurrence of the spec (§4.5 step 2):
`y[n] = Σ b[i]·x[n-i] − Σ_{i≥1} a[i]·y[n-i]`, with `a` normalized
(`a[0] = 1`).  `xh`/`yh` hold the past inputs/outputs, most recent first. -/
def lfilterAux (b ar : List ℚ) : List ℚ → List ℚ → List ℚ → List ℚ
  | [], _, _ => []
  | x :: xs, xh, yh =>
    let xh2 := x :: xh
    let y := (List.zipWith (· * ·) b xh2).sum - (List.zipWith (· * ·) ar yh).sum
    y :: lfilterAux b ar xs xh2 (y :: yh)

def lfilter (b a x : List ℚ) : List ℚ :=
  lfilterAux b (a.drop 1) x [] []

/-- Modelled from the spec: the zero-phase filter applier §4.5
(`scipy.signal.filtfilt` is not part of this repository's sources).
Fail with `InsufficientSignalLength` when the input is not longer than
`padlen`; otherwise odd-extend by `padlen` at both ends, filter forward,
reverse–filter–reverse, and trim back to the original length.  Output index
`i` is the doubly filtered sample at input index `i` (sample-for-sample time
alignment). -/
def filtfilt (b a x : List ℚ) : Except FilterErr (List ℚ) :=
  let p := padlenOf b a
  if x.length ≤ p then .error .insufficientLength
  else
    let ext := oddExtL x p
    let y1 := lfilter b a ext
    let y2 := (lfilter b a y1.reverse).reverse
    .ok ((y2.drop p).take x.length)

/-- `apply_lowpass_filter(data, cutoff_freq, fs, order)` (lines 36–58):
`nyquist = 0.5 * fs`; `normal_cutoff = cutoff_freq / nyquist`;
`butter(order, normal_cutoff, btype='low')`; `filtfilt(b, a, data)`. -/
def apply_lowpass_filter (data : List ℚ) (cutoff_freq fs : ℚ) (order : ℤ) :
    Except FilterErr (List ℚ) :=
  let nyquist := 0.5 * fs
  let normal_cutoff := cutoff_freq / nyquist
  match butterValidate order normal_cutoff with
  | .error e => .error e
  | .ok _ =>
    let ba := butterCoeffs order
    filtfilt ba.1 ba.2 data

/-- The per-channel loop of `filter_and_save_data` (lines 98–104).  The loop
body runs inside the function's single `try`, so the first exception
propagates out of the loop: no later channel is filtered. -/
def filterChannelsAll (chans : List (List ℚ)) (cutoff fs : ℚ) (order : ℤ) :
    Except FilterErr (List (List ℚ)) :=
  match chans with
  | [] => .ok []
  | c :: rest =>
    match apply_lowpass_filter c cutoff fs order with
    | .error e => .error e
    | .ok fc =>
      match filterChannelsAll rest cutoff fs order with
      | .error e => .error e
      | .ok frest => .ok (fc :: frest)

inductive SaveOutcome where
  | filtered : List (List ℚ) → SaveOutcome
  | original : SaveOutcome
deriving DecidableEq

/-- `filter_and_save_data` (lines 60–115) on a loaded clean table, given its
time column and its analog channels in declaration order: estimate `fs`,
filter every channel, and save (`filtered <cols>` stands for returning the
`<stem>_filtered.csv` name).  The whole body sits in one `try`; any
exception reaches line 113's `except Exception` and the original `filename`
is returned unchanged (`original`).  A non-finite `fs` (NaN or `+inf`
estimate) makes `normal_cutoff` non-finite, which `butter` rejects — also
reaching the handler. -/
def filter_and_save_data (times : List ℚ) (chans : List (List ℚ))
    (cutoff : ℚ) (order : ℤ) : SaveOutcome :=
  match fsFromTimes times with
  | .finite fs =>
    match filterChannelsAll chans cutoff fs order with
    | .ok cols => .filtered cols
    | .error _ => .original
  | .posInf => .original
  | .nan => .original

/-! ### Helper lemmas: the RECORDING loop -/

/-- The row buffer of the loop is its initial content followed by the
`data`-classified lines of the processed events, in arrival order. -/
theorem runRecording_rows (deadline : Nat) (events : List (Nat × List Char)) :
    ∀ rows, (runRecording deadline events rows).1 = rows ++ recordedLines deadline events := by
  induction events with
  | nil => intro rows; simp [runRecording, recordedLines]
  | cons e rest ih =>
    intro rows
    obtain ⟨t, l⟩ := e
    by_cases ht : t < deadline
    · cases hcl : classifyLine (stripC l) <;>
        simp [runRecording, recordedLines, ht, hcl, ih]
    · simp [runRecording, recordedLines, ht]

/-- Without a completion marker before the deadline, the loop ends in the
timeout outcome. -/
theorem runRecording_timeout (deadline : Nat) :
    ∀ events : List (Nat × List Char),
      (∀ e ∈ events, e.1 < deadline → classifyLine (stripC e.2) ≠ .complete) →
      ∀ rows, (runRecording deadline events rows).2 = .timedOut := by
  intro events
  induction events with
  | nil => intro _ rows; simp [runRecording]
  | cons e rest ih =>
    intro h rows
    obtain ⟨t, l⟩ := e
    by_cases ht : t < deadline
    · have hne : classifyLine (stripC l) ≠ .complete := h (t, l) (by simp) ht
      have hr := ih (fun e he hlt => h e (by simp [he]) hlt)
      cases hcl : classifyLine (stripC l) with
      | complete => exact absurd hcl hne
      | diag => simpa [runRecording, ht, hcl] using hr rows
      | data => simpa [runRecording, ht, hcl] using hr (rows ++ [stripC l])
      | blank => simpa [runRecording, ht, hcl] using hr rows
    · simp [runRecording, ht]

/-! ### Claim C1 -/

/-- Claim C1 is falsified by the code: during RECORDING, the line
`"garbage"` — which does not have the expected field-separator count
(5 commas) — is nevertheless appended to the session's row buffer; the
source's `elif line:` branch appends every non-empty non-marker line. -/
theorem claim_C1_counterexample :
    (runRecording 10 [(0, ("garbage".data))] []).1 = [("garbage".data)]
    ∧ countCommas ("garbage".data) ≠ 5 := by
  decide

/-- Claim C1 (amended): during RECORDING the row buffer grows in arrival
order by exactly the `data`-classified lines (no reordering, no
deduplication), and a line is classified as data iff it is non-empty and
contains none of the three marker substrings — the field-separator count
plays no role in the classification. -/
theorem claim_C1_theorem :
    (∀ (deadline : Nat) (events : List (Nat × List Char)) (rows : List (List Char)),
      (runRecording deadline events rows).1 = rows ++ recordedLines deadline events)
    ∧ ∀ l : List Char, l ≠ [] →
        containsSubC ("RECORDING_COMPLETE".data) l = false →
        containsSubC ("SAMPLES_COLLECTED".data) l = false →
        containsSubC ("END_OF_DATA".data) l = false →
        classifyLine l = .data := by
  constructor
  · exact fun d es rows => runRecording_rows d es rows
  · intro l hne h1 h2 h3
    simp [classifyLine, h1, h2, h3, hne]

/-- Witness for C1's amended theorem at a concrete input. -/
theorem claim_C1_witness : classifyLine ("garbage".data) = .data :=
  claim_C1_theorem.2 ("garbage".data) (by decide) (by decide) (by decide) (by decide)

/-! ### Claim C9 -/

/-- Claim C9: a session that never receives a completion marker before its
deadline stops with the timeout outcome (the loop is a total function of
the event schedule — no infinite loop, no uncaught error) and its row
buffer still holds every data line that arrived before the deadline, in
arrival order (possibly none). -/
theorem claim_C9_theorem (deadline : Nat) (events : List (Nat × List Char))
    (h : ∀ e ∈ events, e.1 < deadline → classifyLine (stripC e.2) ≠ .complete) :
    runRecording deadline events [] = (recordedLines deadline events, .timedOut) := by
  have h1 : (runRecording deadline events []).1 = recordedLines deadline events := by
    simpa using runRecording_rows deadline events []
  have h2 : (runRecording deadline events []).2 = .timedOut :=
    runRecording_timeout deadline events h []
  rw [← h1, ← h2]

/-- Witness for C9: one good data row, then the completion marker arriving
only after the deadline; the session times out with the one row kept. -/
theorem claim_C9_witness :
    runRecording 10 [(0, ("1,0,2.5,2.5,2.5,2.5".data)), (20, ("RECORDING_COMPLETE".data))] [] =
      ([("1,0,2.5,2.5,2.5,2.5".data)], .timedOut) := by
  have h := claim_C9_theorem 10
    [(0, ("1,0,2.5,2.5,2.5,2.5".data)), (20, ("RECORDING_COMPLETE".data))] (by decide)
  rw [h]
  decide

/-! ### Helper lemma: the cleaner loop -/

/-- The cleaner's loop keeps exactly the header-or-accepted lines, in input
order, and its flag records whether any header line was seen. -/
theorem cleanGo_eq (lines : List (List Char)) :
    cleanGo lines =
      (lines.filter (fun l => isHeaderLine l || acceptData l), lines.any isHeaderLine) := by
  induction lines with
  | nil => rfl
  | cons l rest ih =>
    cases hh : isHeaderLine l with
    | true => simp [cleanGo, ih, hh, List.filter_cons, List.any_cons]
    | false =>
      cases ha : acceptData l with
      | true => simp [cleanGo, ih, hh, ha, List.filter_cons, List.any_cons]
      | false => simp [cleanGo, ih, hh, ha, List.filter_cons, List.any_cons]

/-! ### Claim C7 -/

/-- Claim C7 is falsified by the code on both counts.  First, a duplicate
header line is kept, not discarded: every line containing `"Sample,Time"`
is appended to the cleaned output, so a file with the header repeated keeps
both copies.  Second, acceptance of a non-header line is not "exactly six
numeric fields": the line `"1,a,b,c,d,e"` has 5 commas and a leading digit,
so it is accepted although four of its fields are not numeric. -/
theorem claim_C7_counterexample :
    clean_data_file
      [("Sample,Time(ms),A0(V),A1(V),A2(V),A3(V)".data),
       ("1,0,2.5,2.5,2.5,2.5".data),
       ("Sample,Time(ms),A0(V),A1(V),A2(V),A3(V)".data)] =
      [("Sample,Time(ms),A0(V),A1(V),A2(V),A3(V)".data),
       ("1,0,2.5,2.5,2.5,2.5".data),
       ("Sample,Time(ms),A0(V),A1(V),A2(V),A3(V)".data)]
    ∧ clean_data_file [("1,a,b,c,d,e".data)] = [canonicalHeader, ("1,a,b,c,d,e".data)]
    ∧ isNatC ("a".data) = false := by
  decide

/-- Claim C7 (amended): after stripping, every line containing the
substring `"Sample,Time"` is kept (duplicate headers included); every other
line is kept iff it matches the strict numeric pattern
`int,int,dec.dec,dec.dec,dec.dec,dec.dec` or has exactly 5 commas and a
leading digit character; kept lines appear in input order, and the
canonical header is synthesized in front iff no header line occurred but at
least one line was kept. -/
theorem claim_C7_theorem (lines : List (List Char)) :
    clean_data_file lines =
      if !(lines.map stripC).any isHeaderLine
          && !((lines.map stripC).filter (fun l => isHeaderLine l || acceptData l)).isEmpty
      then canonicalHeader ::
        (lines.map stripC).filter (fun l => isHeaderLine l || acceptData l)
      else (lines.map stripC).filter (fun l => isHeaderLine l || acceptData l) := by
  simp only [clean_data_file, cleanGo_eq]

/-! ### Claim C8 -/

/-- Claim C8: on the spec's four example lines, the cleaner keeps the header
first and exactly the 2 well-formed data rows; the `"garbage"` line is
discarded and cleaning is not aborted. -/
theorem claim_C8_theorem :
    clean_data_file
      [("Sample,Time(ms),A0(V),A1(V),A2(V),A3(V)".data),
       ("1,0,2.5,2.5,2.5,2.5".data),
       ("garbage".data),
       ("2,10,2.6,2.4,2.5,2.5".data)] =
      [("Sample,Time(ms),A0(V),A1(V),A2(V),A3(V)".data),
       ("1,0,2.5,2.5,2.5,2.5".data),
       ("2,10,2.6,2.4,2.5,2.5".data)] := by
  decide

/-! ### Claim C3 -/

/-- Claim C3: for a table whose time column has at least 2 rows (so the
delta list is non-empty and has a median) with positive median delta, the
estimator returns the finite rate `1000 / median(consecutive deltas)`; in
particular the time column `[0, 10, 20, 30]` gives exactly 100 Hz. -/
theorem claim_C3_theorem :
    (∀ (ts : List ℚ) (m : ℚ), 2 ≤ ts.length → npMedian (npDiff ts) = some m → 0 < m →
      fsFromTimes ts = .finite (1000 / m))
    ∧ fsFromTimes [0, 10, 20, 30] = .finite 100 := by
  constructor
  · intro ts m _ hm hpos
    simp [fsFromTimes, hm, divByMedian, hpos.ne']
  · with_unfolding_all decide

/-- Witness for C3 at the spec's concrete time column. -/
theorem claim_C3_witness : fsFromTimes [0, 10, 20, 30] = .finite (1000 / 10) :=
  claim_C3_theorem.1 [0, 10, 20, 30] 10 (by decide) (by with_unfolding_all decide)
    (by with_unfolding_all decide)

/-! ### Claim C4 -/

/-- Claim C4 is falsified by the code: for the time column `[5, 5]` the
median delta is zero, and the estimator neither fails nor returns NaN —
the division `1000.0 / 0.0` is performed unguarded and yields `+inf`
(numpy emits only a runtime warning). -/
theorem claim_C4_counterexample :
    npMedian (npDiff [5, 5]) = some 0
    ∧ fsFromTimes [5, 5] = .posInf
    ∧ NpFloat.posInf ≠ NpFloat.nan := by
  refine ⟨by with_unfolding_all decide, by with_unfolding_all decide, by decide⟩

/-- Claim C4 (amended): with fewer than 2 rows the delta list is empty and
the estimator returns NaN (the median of an empty array); the zero-median
case is NOT guarded — the division executes under IEEE semantics and
returns `+inf`.  In neither case does the estimator itself raise; the
non-finite rate only fails later, inside the filter design. -/
theorem claim_C4_theorem :
    (∀ ts : List ℚ, ts.length < 2 → fsFromTimes ts = .nan)
    ∧ ∀ ts : List ℚ, npMedian (npDiff ts) = some 0 → fsFromTimes ts = .posInf := by
  constructor
  · intro ts hlen
    rcases ts with _ | ⟨a, _ | ⟨b, rest⟩⟩
    · rfl
    · rfl
    · simp [List.length_cons] at hlen
      omega
  · intro ts h
    simp [fsFromTimes, h, divByMedian]

/-- Witness for C4's amended theorem at concrete inputs. -/
theorem claim_C4_witness :
    fsFromTimes [7] = .nan ∧ fsFromTimes [5, 5] = .posInf :=
  ⟨claim_C4_theorem.1 [7] (by decide),
   claim_C4_theorem.2 [5, 5] (by with_unfolding_all decide)⟩

/-! ### Helper lemmas: filter lengths and error propagation -/

/-- The IIR recurrence produces exactly one output sample per input sample. -/
theorem lfilterAux_length (b ar : List ℚ) :
    ∀ xs xh yh : List ℚ, (lfilterAux b ar xs xh yh).length = xs.length := by
  intro xs
  induction xs with
  | nil => intro xh yh; rfl
  | cons x rest ih => intro xh yh; simp [lfilterAux, ih]

theorem lfilter_length (b a x : List ℚ) : (lfilter b a x).length = x.length :=
  lfilterAux_length b (a.drop 1) x [] []

/-- Odd extension adds exactly `n` reflected samples at each end when the
signal is longer than `n`. -/
theorem oddExtL_length (x : List ℚ) (n : Nat) (h : n < x.length) :
    (oddExtL x n).length = x.length + 2 * n := by
  simp [oddExtL, List.length_append, List.length_map, List.length_take,
    List.length_drop, List.length_reverse]
  omega

/-- If any channel of the list fails to filter, the whole per-channel loop
(which runs inside the function's single `try`) fails. -/
theorem filterChannelsAll_error_of_mem (cutoff fs : ℚ) (order : ℤ) :
    ∀ (chans : List (List ℚ)) (c : List ℚ) (e : FilterErr), c ∈ chans →
      apply_lowpass_filter c cutoff fs order = .error e →
      ∃ ew, filterChannelsAll chans cutoff fs order = .error ew := by
  intro chans
  induction chans with
  | nil => intro c e hc _; exact absurd hc (List.not_mem_nil c)
  | cons hd tl ih =>
    intro c e hc he
    rcases List.mem_cons.mp hc with rfl | hmem
    · exact ⟨e, by simp [filterChannelsAll, he]⟩
    · cases hh : apply_lowpass_filter hd cutoff fs order with
      | error e2 => exact ⟨e2, by simp [filterChannelsAll, hh]⟩
      | ok fc =>
        obtain ⟨ew, hw⟩ := ih c e hmem he
        exact ⟨ew, by simp [filterChannelsAll, hh, hw]⟩

/-! ### Claim C2 -/

/-- Claim C2: for every coefficient pair and every input of length at least
`padlen + 1`, zero-phase filtering succeeds and preserves the input length;
by construction the `i`-th output sample is the doubly filtered value at
input index `i` (sample-for-sample time alignment). -/
theorem claim_C2_theorem (b a x : List ℚ) (h : padlenOf b a < x.length) :
    ∃ y, filtfilt b a x = .ok y ∧ y.length = x.length := by
  have hnot : ¬x.length ≤ padlenOf b a := Nat.not_le.mpr h
  simp only [filtfilt, if_neg hnot]
  refine ⟨_, rfl, ?_⟩
  simp [List.length_take, List.length_drop, List.length_reverse,
    lfilter_length, oddExtL_length x (padlenOf b a) h]
  omega

/-- Witness for C2: a pass-through coefficient pair (`padlen = 3`) on a
signal of 4 samples. -/
theorem claim_C2_witness :
    ∃ y, filtfilt [1] [1] [0, 0, 0, 0] = .ok y ∧ y.length = 4 := by
  exact claim_C2_theorem [1] [1] [0, 0, 0, 0] (by decide)

/-! ### Claim C5 -/

/-- Claim C5 (spec-modelled designer validation): whenever the normalized
cutoff `Wn = cutoff_freq / (0.5 * fs)` computed by `apply_lowpass_filter`
satisfies `Wn ≥ 1` or `Wn ≤ 0`, or the order is ≤ 0, the filtering call
fails with the invalid-spec error and never produces coefficients. -/
theorem claim_C5_theorem (data : List ℚ) (cutoff_freq fs : ℚ) (order : ℤ)
    (h : 1 ≤ cutoff_freq / (0.5 * fs) ∨ cutoff_freq / (0.5 * fs) ≤ 0 ∨ order ≤ 0) :
    apply_lowpass_filter data cutoff_freq fs order = .error .invalidSpec := by
  have hval : butterValidate order (cutoff_freq / (0.5 * fs)) = .error .invalidSpec := by
    unfold butterValidate
    by_cases ho : order ≤ 0
    · simp [ho]
    · have hw : cutoff_freq / (0.5 * fs) ≤ 0 ∨ 1 ≤ cutoff_freq / (0.5 * fs) := by tauto
      simp [ho, hw]
  simp [apply_lowpass_filter, hval]

/-- Witness for C5: cutoff 10 Hz at sample rate 10 Hz (`Wn = 2 ≥ 1`). -/
theorem claim_C5_witness :
    apply_lowpass_filter [] 10 10 4 = .error .invalidSpec :=
  claim_C5_theorem [] 10 10 4 (Or.inl (by with_unfolding_all decide))

/-! ### Claim C6 -/

/-- Claim C6 is falsified by the code: with time column `[0, 10]`
(`fs = 100` Hz), a 3-sample channel A0 (shorter than `padlen + 1 = 16`) and
a healthy 20-sample channel A1, the whole filter-and-save call aborts and
returns the original file — channel A1 is NOT filtered, even though on its
own it would filter fine (third conjunct). -/
theorem claim_C6_counterexample :
    filter_and_save_data [0, 10] [List.replicate 3 0, List.replicate 20 0] 2 4 = .original
    ∧ apply_lowpass_filter (List.replicate 3 0) 2 100 4 = .error .insufficientLength
    ∧ apply_lowpass_filter (List.replicate 20 0) 2 100 4 = .ok (List.replicate 20 0) := by
  refine ⟨by with_unfolding_all decide, by with_unfolding_all rfl, by with_unfolding_all rfl⟩

/-- Claim C6 (amended): a filtering error on any single channel aborts the
entire filter-and-save call — the per-channel loop runs inside one
`try`/`except`, so no channel's filtered output is saved and the original
file is returned; only the outer program pipeline continues. -/
theorem claim_C6_theorem (times : List ℚ) (chans : List (List ℚ)) (cutoff : ℚ)
    (order : ℤ) (fs : ℚ) (c : List ℚ) (e : FilterErr)
    (hfs : fsFromTimes times = .finite fs) (hc : c ∈ chans)
    (he : apply_lowpass_filter c cutoff fs order = .error e) :
    filter_and_save_data times chans cutoff order = .original := by
  obtain ⟨ew, hw⟩ := filterChannelsAll_error_of_mem cutoff fs order chans c e hc he
  simp [filter_and_save_data, hfs, hw]

/-- Witness for C6's amended theorem at a concrete failing channel. -/
theorem claim_C6_witness :
    filter_and_save_data [0, 10] [[0, 0, 0]] 2 4 = .original :=
  claim_C6_theorem [0, 10] [[0, 0, 0]] 2 4 100 [0, 0, 0] .insufficientLength
    (by with_unfolding_all decide) (by with_unfolding_all decide)
    (by with_unfolding_all rfl)

/-! ### Claim C10 -/

/-- Claim C10: whatever goes wrong inside the filter-and-save step — a
non-finite rate estimate (NaN or `+inf`) or a filtering error on any
channel — the function returns the original input (`original`, i.e. the
unchanged input filename) instead of propagating the error, and its result
is always either a filtered table or the original input (totality of the
`except Exception` handler). -/
theorem claim_C10_theorem (times : List ℚ) (chans : List (List ℚ)) (cutoff : ℚ)
    (order : ℤ) :
    ((fsFromTimes times = .nan ∨ fsFromTimes times = .posInf) →
      filter_and_save_data times chans cutoff order = .original)
    ∧ (∀ (fs : ℚ) (e : FilterErr), fsFromTimes times = .finite fs →
        filterChannelsAll chans cutoff fs order = .error e →
        filter_and_save_data times chans cutoff order = .original)
    ∧ ((∃ cols, filter_and_save_data times chans cutoff order = .filtered cols)
        ∨ filter_and_save_data times chans cutoff order = .original) := by
  refine ⟨?_, ?_, ?_⟩
  · rintro (h | h) <;> simp [filter_and_save_data, h]
  · intro fs e hfs he
    simp [filter_and_save_data, hfs, he]
  · cases hr : filter_and_save_data times chans cutoff order with
    | filtered cols => exact Or.inl ⟨cols, rfl⟩
    | original => exact Or.inr rfl

/-- Witness for C10: a zero-median time column makes the rate estimate
`+inf`; the step returns the original input. -/
theorem claim_C10_witness :
    filter_and_save_data [5, 5] [] 2 4 = .original :=
  (claim_C10_theorem [5, 5] [] 2 4).1 (Or.inr (by with_unfolding_all decide))

end ArduinoDaq
